import Mathlib

/-! Reliverse CLI (Go prototype): directory-name resolver and install workflow.

A shallow embedding of `cli/go/utils.go`, `cli/go/main.go` and `cli/dialogs.go`.
The filesystem, the console and the spawned processes are explicit state; the
only loop (`findNextAvailableDir`) is run with fuel.
-/

namespace Reliverse

/-! ## Filesystem and `os.Stat` -/

/-- What `os.Stat` reports for a path: it is there (`err == nil`), it is not there
(an `ENOENT` error), or the probe itself failed (any other error, such as
permission denied). -/
inductive Entry
  | present
  | absent
  | fault
  deriving DecidableEq, Repr

/-- The filesystem as the program can observe it: the outcome of probing each path. -/
abbrev FileSystem := String → Entry

/-- The `err` result of `os.Stat`. -/
inductive StatErr
  | nil
  | notExist
  | other
  deriving DecidableEq, Repr

/-- The call `os.Stat(name)`: a read-only probe. The filesystem is handed back so that
callers thread it like any other operation on it. -/
def os_Stat (fs : FileSystem) (name : String) : StatErr × FileSystem :=
  match fs name with
  | .present => (.nil, fs)
  | .absent => (.notExist, fs)
  | .fault => (.other, fs)

/-- The test `os.IsNotExist(err)`. -/
def os_IsNotExist : StatErr → Bool
  | .notExist => true
  | _ => false

/-! ## `findNextAvailableDir` -/

/-- The type `int` of Go on 64-bit targets: arithmetic wraps to the range `[-2^63, 2^63)`. -/
def wrapInt (z : Int) : Int := (z + 9223372036854775808) % 18446744073709551616 - 9223372036854775808

/-- The call `fmt.Sprintf("%s-%d", baseDir, counter)`. -/
def sprintfDir (baseDir : String) (counter : Int) : String :=
  baseDir ++ "-" ++ toString counter

/-- The `for` loop of `findNextAvailableDir`, one iteration per unit of fuel.
The first component is `none` when the fuel ran out before the `break`. -/
def findNextAvailableDirLoop (baseDir : String) :
    Nat → FileSystem → String → Int → Option String × FileSystem
  | 0, fs, _, _ => (none, fs)
  | fuel + 1, fs, dirName, counter =>
    let (err, fs) := os_Stat fs dirName
    if os_IsNotExist err then
      (some dirName, fs)
    else
      findNextAvailableDirLoop baseDir fuel fs (sprintfDir baseDir counter) (wrapInt (counter + 1))

/-- The function `findNextAvailableDir(baseDir)`: `dirName := baseDir`, `counter := 1`, then
the loop. -/
def findNextAvailableDir (fs : FileSystem) (baseDir : String) (fuel : Nat) :
    Option String × FileSystem :=
  findNextAvailableDirLoop baseDir fuel fs baseDir 1

/-- The sequence `base, base-1, base-2, ...` of candidate names. -/
def seqName (base : String) : Nat → String
  | 0 => base
  | k + 1 => base ++ "-" ++ toString (k + 1)

/-! ## Console input: `fmt.Scanln` and `strings.ToLower` -/

/-- The `isSpace` table of package `fmt`: the runes that separate scanned words. -/
def isSpace (r : Char) : Bool :=
  let n := r.toNat
  (0x0009 ≤ n && n ≤ 0x000d) || n == 0x0020 || n == 0x0085 || n == 0x00a0 || n == 0x1680 ||
    (0x2000 ≤ n && n ≤ 0x200a) || n == 0x2028 || n == 0x2029 || n == 0x202f || n == 0x205f ||
    n == 0x3000

/-- The `SkipSpace` of the scanner in `Scanln` mode: blanks are consumed up to the next
word. A newline met first is consumed and is the error "unexpected newline" (flag `true`).
A carriage return is a blank by the table, so the scanner treating it apart before a
newline changes nothing. -/
def skipSpace : List Char → Bool × List Char
  | [] => (false, [])
  | c :: cs =>
    if c = '\n' then (true, cs)
    else if isSpace c then skipSpace cs
    else (false, c :: cs)

/-- The `token(true, notSpace)` of the scanner: the runes of the next word, and what follows
it. -/
def token : List Char → List Char × List Char
  | [] => ([], [])
  | c :: cs =>
    if isSpace c then ([], c :: cs)
    else ((token cs).1.cons c, (token cs).2)

/-- The check that closes `Scanln`: the rest of the line must be blank. Blanks and the
newline are consumed; a further word is the error "expected newline", and the rune that
revealed it is consumed too. -/
def expectNewline : List Char → List Char
  | [] => []
  | c :: cs =>
    if c = '\n' then cs
    else if isSpace c then expectNewline cs
    else cs

/-- The call `fmt.Scanln(&response)` with `response` initially empty, on the unread standard
input: the value left in `response` and the input left unread. The error result is not
part of the value because no caller looks at it. -/
def Scanln (input : List Char) : String × List Char :=
  match skipSpace input with
  | (true, rest) => ("", rest)
  | (false, []) => ("", [])
  | (false, c :: cs) => (String.mk (token (c :: cs)).1, expectNewline (token (c :: cs)).2)

/-- The function `strings.ToLower`. Letters outside ASCII are left alone here; no such letter
has `y` as its lower case, so the comparisons with the string y made by the callers are
exact. -/
def strings_ToLower (s : String) : String := String.mk (s.data.map Char.toLower)

/-! ## The world the program runs in -/

/-- What the program does to the outside, in the order it does it. -/
inductive Event
  | print (line : String)
  | logError (msg : String) (err : String)
  | scanln
  | run (argv : List String)
  | start (argv : List String)
  deriving DecidableEq, Repr

structure World where
  fs : FileSystem
  stdin : List Char
  trace : List Event

/-- The collaborators and the platform: `runtime.GOOS`, and for a command line and a
filesystem the error (if any) of `(*exec.Cmd).Run` and of `(*exec.Cmd).Start`, with the
filesystem the child process leaves behind. -/
structure Env where
  GOOS : String
  run : FileSystem → List String → Option String × FileSystem
  start : FileSystem → List String → Option String × FileSystem

/-- The call `fmt.Println(line)`. -/
def Println (line : String) (w : World) : World :=
  { w with trace := w.trace ++ [Event.print line] }

/-- The call `log.Error(msg, err)`. -/
def logError (msg err : String) (w : World) : World :=
  { w with trace := w.trace ++ [Event.logError msg err] }

/-- The call `fmt.Scanln(&response)` on the standard input of the world. -/
def scanResponse (w : World) : String × World :=
  ((Scanln w.stdin).1, { w with stdin := (Scanln w.stdin).2, trace := w.trace ++ [Event.scanln] })

/-- The call `exec.Command(argv...).Run()`. -/
def cmdRun (env : Env) (argv : List String) (w : World) : Option String × World :=
  ((env.run w.fs argv).1, { w with fs := (env.run w.fs argv).2, trace := w.trace ++ [Event.run argv] })

/-- The call `exec.Command(argv...).Start()`. -/
def cmdStart (env : Env) (argv : List String) (w : World) : Option String × World :=
  ((env.start w.fs argv).1,
    { w with fs := (env.start w.fs argv).2, trace := w.trace ++ [Event.start argv] })

/-! ## `dialogs.go` -/

def ShowWelcomeMessage (w : World) : World :=
  let w := Println "▲ Reliverse CLI v0.3.0" w
  let w := Println "▲ Issue? Hotline: https://discord.gg/Pb8uKbwpsJ" w
  let w := Println "" w
  let w := Println "👋 Hello and thank you for testing the Reliverse CLI! This is still an early alpha version, so we apologize if you encounter any issues. Please reach out on Discord to report any, as well as to provide any suggestions on how to improve our wizard. Really, thanks so much! And good luck with your Relivator-based web-app deployment!" w
  let w := Println "" w
  Println "🦄 Hey there! Did someone say Reli? It\x27s me! Your friend and personal AI assistant! I\x27m here to help you deploy Relivator. Let\x27s get started!" w

def AskForInstallationConfirmation (w : World) : Bool × World :=
  let w := Println "" w
  let w := Println "🦄 So far, I have only been trained to install the full version of Relivator for you, where you will need to specify your database in your .env file. In the future I will can install also the simplest possible Relivator\x27s edition, which does not require any additional configuration. But, for now, are you ready to install the latest full-featured Relivator?" w
  let w := Println "" w
  let w := Println "🔵 Type Y to start the installation (please wait for completion), N to cancel, then press Enter." w
  let w := Println "" w
  let (response, w) := scanResponse w
  (strings_ToLower response == "y", w)

def AskToReadReadme (w : World) : Bool × World :=
  let w := Println "" w
  let w := Println "📖 Do you want to read the Relivator\x27s README? [Y/N]" w
  let w := Println "" w
  let (readResponse, w) := scanResponse w
  (strings_ToLower readResponse == "y", w)

/-! ## `utils.go`: `openURL` -/

/-- The command line `openURL` builds for the running platform. -/
def openCommand (goos url : String) : List String :=
  if goos = "windows" then ["rundll32", "url.dll,FileProtocolHandler", url]
  else if goos = "darwin" then ["open", url]
  else ["xdg-open", url]

def openURL (env : Env) (url : String) (w : World) : Option String × World :=
  cmdStart env (openCommand env.GOOS url) w

/-! ## `main.go` -/

/-- The place where `main` returns. -/
inductive Exit
  | cancelled
  | cloneFailed
  | openFailed
  | declinedReadme
  | completed
  deriving DecidableEq, Repr

/-- The program `main`. The result is `none` when `findNextAvailableDir` was still
looping when the fuel ran out. -/
def main (env : Env) (fuel : Nat) (w : World) : Option (Exit × World) :=
  let w := ShowWelcomeMessage w
  let (yes, w) := AskForInstallationConfirmation w
  if !yes then
    some (.cancelled, Println "🔴 Installation cancelled." w)
  else
    match findNextAvailableDir w.fs "relivator" fuel with
    | (none, _) => none
    | (some dirName, fs) =>
      let w := { w with fs := fs }
      let (err, w) := cmdRun env ["git", "clone", "https://github.com/blefnk/relivator", dirName] w
      match err with
      | some e =>
        some (.cloneFailed,
          logError "🔴 Failed to clone the https://github.com/blefnk/relivator repository: " e w)
      | none =>
        let w := Println ("✅ Successfully cloned the https://github.com/blefnk/relivator repository into" ++ " " ++ dirName) w
        let (read, w) := AskToReadReadme w
        if read then
          let (err, w) := openURL env "https://github.com/blefnk/relivator#readme" w
          match err with
          | some e => some (.openFailed, logError "🔴 Failed to open the README: " e w)
          | none =>
            let w := Println "📖 README opened successfully." w
            let w := Println "" w
            let w := Println "⚠️ To be continued... Check back later or please help with code contributions..." w
            some (.completed, Println "" w)
        else
          some (.declinedReadme, Println "🔴 Exiting the program." w)

/-! ## Concrete filesystems and environments the theorems are tried on -/

/-- The filesystem in which every name whose probe fails is simply there. -/
def asTaken (fs : FileSystem) : FileSystem :=
  fun p => if fs p = .fault then .present else fs p

/-- How `os.Stat` answers in a working directory that may be searched and holds exactly the
entries `names`: a name of more than 255 bytes is refused with the error "file name too
long", whether or not anything is there; any other name is there or does not exist. -/
def dirFS (names : List String) : FileSystem :=
  fun p => if 255 < p.utf8ByteSize then .fault else if p ∈ names then .present else .absent

/-- Scenario B: exactly `relivator` and `relivator-1` exist. -/
def fsB : FileSystem := dirFS ["relivator", "relivator-1"]

/-- Nothing exists. -/
def fsEmpty : FileSystem := dirFS []

/-- Only `relivator` exists. -/
def fsTaken : FileSystem := dirFS ["relivator"]

/-- A base name of 300 bytes. -/
def longBase : String := String.mk (List.replicate 300 'a')

/-- Every name of fewer than 30 runes exists and no longer name does: all of `relivator`,
`relivator-1`, ... up to the end of the range of the counter exist. -/
def fsCrowded : FileSystem := fun p => if 30 ≤ p.length then .absent else .present

/-- Probing `relivator` fails with another error than "does not exist" (a symbolic link that
loops, say); nothing else is there. -/
def fsFaultBase : FileSystem := fun p => if p = "relivator" then .fault else .absent

/-- Scenario B with an unrelated directory next to it. -/
def fsBPlus : FileSystem := dirFS ["unrelated", "relivator", "relivator-1"]

/-! ## Names for the literals of `main`, and the readings of the specification -/

def cloneURL : String := "https://github.com/blefnk/relivator"

def readmeURL : String := "https://github.com/blefnk/relivator#readme"

def cancelMessage : String := "🔴 Installation cancelled."

def cloneErrorMessage : String :=
  "🔴 Failed to clone the https://github.com/blefnk/relivator repository: "

def readmePrompt : String := "📖 Do you want to read the Relivator\x27s README? [Y/N]"

def readmeOpenedMessage : String := "📖 README opened successfully."

def exitMessage : String := "🔴 Exiting the program."

def closingBanner : String :=
  "⚠️ To be continued... Check back later or please help with code contributions..."

/-- The calls of the two collaborators: the clone (`Run`) and the browser opener (`Start`). -/
def Event.isCollaborator : Event → Bool
  | .run _ => true
  | .start _ => true
  | _ => false

/-- The line with the blanks at both ends removed, blank meaning what `isSpace` says. -/
def trimSpace (line : List Char) : List Char :=
  ((line.dropWhile isSpace).reverse.dropWhile isSpace).reverse

/-- The yes/no rule in the words of the specification: normalize (lowercase, trim) and
test equality to y. -/
def specAnswer (line : List Char) : Bool :=
  strings_ToLower (String.mk (trimSpace line)) == "y"

/-- The first word of a line: leading blanks skipped, then everything up to the next
blank. -/
def firstWord (line : List Char) : List Char :=
  (line.dropWhile isSpace).takeWhile (fun c => !isSpace c)

/-- The terminal states of the workflow in the specification. -/
inductive Terminal
  | done
  | cancelled
  | failed
  deriving DecidableEq, Repr

/-- The terminal state the specification gives to each way out of `main`: declining the
installation is `Cancelled`, a failing collaborator is `Failed`, and after a successful
clone both the opened README and the declined README prompt are `Done`. -/
def Exit.terminal : Exit → Terminal
  | .cancelled => .cancelled
  | .cloneFailed => .failed
  | .openFailed => .failed
  | .declinedReadme => .done
  | .completed => .done

/-- What a run shows of itself: the way out of `main`, and the printed messages, reads
and collaborator calls in their order. -/
def observed (r : Option (Exit × World)) : Option (Exit × List Event) :=
  r.map (fun x => (x.1, x.2.trace))

/-- A successful `git clone`: the target directory, the last argument, is there afterwards. -/
def cloneOk (fs : FileSystem) (argv : List String) : Option String × FileSystem :=
  (none, fun p => if argv.getLast? = some p then .present else fs p)

/-- Both collaborators succeed: the clone creates its target, the opener leaves the
filesystem alone; the platform is Linux. -/
def envOk : Env := ⟨"linux", cloneOk, fun fs _ => (none, fs)⟩

/-- The clone fails with exit status 128. -/
def envCloneFails : Env :=
  ⟨"linux", fun fs _ => (some "exit status 128", fs), fun fs _ => (none, fs)⟩

/-! ## Lemmas on the resolver loop -/

theorem wrapInt_of_inRange (z : Int) (h0 : 0 ≤ z) (h1 : z < 9223372036854775808) :
    wrapInt z = z := by
  unfold wrapInt; omega

theorem wrapInt_succ (z : Int) : wrapInt (wrapInt z + 1) = wrapInt (z + 1) := by
  unfold wrapInt; omega

theorem sprintfDir_natCast (base : String) (k : Nat) :
    sprintfDir base ((k + 1 : Nat) : Int) = seqName base (k + 1) := rfl

theorem loop_zero (base : String) (fs : FileSystem) (d : String) (c : Int) :
    findNextAvailableDirLoop base 0 fs d c = (none, fs) := rfl

theorem loop_succ (base : String) (fuel : Nat) (fs : FileSystem) (d : String) (c : Int) :
    findNextAvailableDirLoop base (fuel + 1) fs d c =
      if fs d = .absent then (some d, fs)
      else findNextAvailableDirLoop base fuel fs (sprintfDir base c) (wrapInt (c + 1)) := by
  simp only [findNextAvailableDirLoop, os_Stat]
  cases h : fs d <;> simp [os_IsNotExist]

theorem loop_snd (base : String) (fs : FileSystem) :
    ∀ (fuel : Nat) (d : String) (c : Int), (findNextAvailableDirLoop base fuel fs d c).2 = fs := by
  intro fuel
  induction fuel with
  | zero => intro d c; rfl
  | succ n ih =>
    intro d c
    rw [loop_succ]
    split
    · rfl
    · exact ih _ _

theorem loop_some_absent (base : String) (fs : FileSystem) :
    ∀ (fuel : Nat) (d : String) (c : Int) (x : String),
      (findNextAvailableDirLoop base fuel fs d c).1 = some x → fs x = .absent := by
  intro fuel
  induction fuel with
  | zero => intro d c x h; simp [loop_zero] at h
  | succ n ih =>
    intro d c x h
    rw [loop_succ] at h
    split at h
    · rename_i hd
      simp at h
      rw [← h]; exact hd
    · exact ih _ _ _ h

theorem loop_mono (base : String) (fs : FileSystem) :
    ∀ (fuel : Nat) (d : String) (c : Int) (x : String),
      (findNextAvailableDirLoop base fuel fs d c).1 = some x →
      ∀ fuel2, fuel ≤ fuel2 → (findNextAvailableDirLoop base fuel2 fs d c).1 = some x := by
  intro fuel
  induction fuel with
  | zero => intro d c x h; simp [loop_zero] at h
  | succ n ih =>
    intro d c x h fuel2 hle
    obtain ⟨m, rfl⟩ : ∃ m, fuel2 = m + 1 := ⟨fuel2 - 1, by omega⟩
    rw [loop_succ] at h ⊢
    split
    · rename_i hd
      simpa [hd] using h
    · rename_i hd
      simp only [hd, if_false] at h
      exact ih _ _ _ h m (by omega)

/-- From the state the loop is in after `i` iterations it reaches the first absent name of
the sequence, provided the index of that name is within the range of the counter. -/
theorem loop_reach (base : String) (fs : FileSystem) (k : Nat) (hk : k < 9223372036854775808)
    (habs : fs (seqName base k) = .absent)
    (hfirst : ∀ j, j < k → fs (seqName base j) ≠ .absent) :
    ∀ (n i fuel : Nat), i + n = k → n < fuel →
      findNextAvailableDirLoop base fuel fs (seqName base i) (wrapInt (i + 1)) =
        (some (seqName base k), fs) := by
  intro n
  induction n with
  | zero =>
    intro i fuel hik hf
    obtain ⟨m, rfl⟩ : ∃ m, fuel = m + 1 := ⟨fuel - 1, by omega⟩
    have : i = k := by omega
    subst this
    rw [loop_succ, if_pos habs]
  | succ n ih =>
    intro i fuel hik hf
    obtain ⟨m, rfl⟩ : ∃ m, fuel = m + 1 := ⟨fuel - 1, by omega⟩
    rw [loop_succ, if_neg (hfirst i (by omega))]
    have hw : wrapInt ((i : Int) + 1) = ((i + 1 : Nat) : Int) := by
      rw [wrapInt_of_inRange] <;> push_cast <;> omega
    rw [wrapInt_succ, hw, sprintfDir_natCast]
    have := ih (i + 1) m (by omega) (by omega)
    simpa [add_assoc] using this

/-- Two filesystems that agree on the names of the sequence up to an absent one give the
loop the same result, whatever the fuel. -/
theorem loop_congr (base : String) (fs fs2 : FileSystem) (k : Nat)
    (hk : k < 9223372036854775808) (habs : fs (seqName base k) = .absent)
    (hagree : ∀ j, j ≤ k → fs (seqName base j) = fs2 (seqName base j)) :
    ∀ (n i fuel : Nat), i + n = k →
      (findNextAvailableDirLoop base fuel fs (seqName base i) (wrapInt (i + 1))).1 =
        (findNextAvailableDirLoop base fuel fs2 (seqName base i) (wrapInt (i + 1))).1 := by
  intro n
  induction n with
  | zero =>
    intro i fuel hik
    have : i = k := by omega
    subst this
    cases fuel with
    | zero => rfl
    | succ m =>
      rw [loop_succ, loop_succ, if_pos habs, if_pos (by rw [← hagree i (le_refl i)]; exact habs)]
  | succ n ih =>
    intro i fuel hik
    cases fuel with
    | zero => rfl
    | succ m =>
      rw [loop_succ, loop_succ, ← hagree i (by omega)]
      split
      · rfl
      · have hw : wrapInt ((i : Int) + 1) = ((i + 1 : Nat) : Int) := by
          rw [wrapInt_of_inRange] <;> push_cast <;> omega
        rw [wrapInt_succ, hw, sprintfDir_natCast]
        have := ih (i + 1) m (by omega)
        simpa [add_assoc] using this

/-- The loop only asks whether a name is absent: two filesystems with the same absent
names give the same result. -/
theorem loop_absent_only (base : String) (fs fs2 : FileSystem)
    (h : ∀ p, fs p = .absent ↔ fs2 p = .absent) :
    ∀ (fuel : Nat) (d : String) (c : Int),
      (findNextAvailableDirLoop base fuel fs d c).1 =
        (findNextAvailableDirLoop base fuel fs2 d c).1 := by
  intro fuel
  induction fuel with
  | zero => intro d c; rfl
  | succ n ih =>
    intro d c
    rw [loop_succ, loop_succ]
    by_cases hd : fs d = .absent
    · rw [if_pos hd, if_pos ((h d).1 hd)]
    · rw [if_neg hd, if_neg (fun h2 => hd ((h d).2 h2))]
      exact ih _ _

/-- As long as the names met are not reported absent and the counter stays in range, `n`
iterations take the loop `n` names further along the sequence. -/
theorem loop_skip (base : String) (fs : FileSystem) :
    ∀ (n i fuel : Nat), i + n < 9223372036854775808 →
      (∀ j, i ≤ j → j < i + n → fs (seqName base j) ≠ .absent) →
      findNextAvailableDirLoop base (fuel + n) fs (seqName base i) (wrapInt (i + 1)) =
        findNextAvailableDirLoop base fuel fs (seqName base (i + n))
          (wrapInt (((i + n : Nat) : Int) + 1)) := by
  intro n
  induction n with
  | zero => intro i fuel _ _; rfl
  | succ n ih =>
    intro i fuel hlt hpres
    have e1 : fuel + (n + 1) = (fuel + n) + 1 := by omega
    rw [e1, loop_succ, if_neg (hpres i (le_refl i) (by omega))]
    have hw : wrapInt ((i : Int) + 1) = ((i + 1 : Nat) : Int) := by
      rw [wrapInt_of_inRange] <;> push_cast <;> omega
    rw [wrapInt_succ, hw, sprintfDir_natCast]
    have h := ih (i + 1) fuel (by omega) (fun j h1 h2 => hpres j (by omega) (by omega))
    have e2 : i + 1 + n = i + (n + 1) := by omega
    rw [e2] at h
    rw [← h]
    push_cast
    ring_nf

theorem utf8ByteSize_go_append (l1 l2 : List Char) :
    String.utf8ByteSize.go (l1 ++ l2) =
      String.utf8ByteSize.go l1 + String.utf8ByteSize.go l2 := by
  induction l1 with
  | nil => simp [String.utf8ByteSize.go]
  | cons c cs ih => simp [String.utf8ByteSize.go, ih]; omega

theorem utf8ByteSize_append (a b : String) :
    (a ++ b).utf8ByteSize = a.utf8ByteSize + b.utf8ByteSize := by
  cases a
  cases b
  exact utf8ByteSize_go_append _ _

theorem longBase_size : longBase.utf8ByteSize = 300 := by
  have h : ∀ n, String.utf8ByteSize.go (List.replicate n 'a') = n := by
    intro n
    induction n with
    | zero => rfl
    | succ m ih =>
      have h1 : Char.utf8Size 'a' = 1 := by decide
      simp only [List.replicate_succ, String.utf8ByteSize.go, ih, h1]
  exact h 300

/-- On a directory as `dirFS` describes it, a name too long is never reported absent, and
every later candidate of a base too long is too long as well: the loop does not return. -/
theorem loop_long_name (base : String) (names : List String) (hb : 255 < base.utf8ByteSize) :
    ∀ (fuel : Nat) (d : String) (c : Int), 255 < d.utf8ByteSize →
      (findNextAvailableDirLoop base fuel (dirFS names) d c).1 = none := by
  intro fuel
  induction fuel with
  | zero => intro d c _; rfl
  | succ n ih =>
    intro d c hd
    have hf : dirFS names d ≠ .absent := by
      simp [dirFS, hd]
    rw [loop_succ, if_neg hf]
    apply ih
    simp only [sprintfDir, utf8ByteSize_append]
    omega

theorem seqName_relivator_length (j : Nat) (hj : j < 10000000000000000000) :
    (seqName "relivator" j).length < 30 := by
  cases j with
  | zero => decide
  | succ k =>
    have h : (toString (k + 1)).length ≤ 19 :=
      Nat.repr_length (k + 1) 19 (by norm_num) (by omega)
    have h1 : "relivator".length = 9 := by decide
    have h2 : "-".length = 1 := by decide
    simp only [seqName, String.length_append]
    omega

theorem resolver_fs_unchanged (fs : FileSystem) (base : String) (fuel : Nat) :
    (findNextAvailableDir fs base fuel).2 = fs :=
  loop_snd base fs fuel base 1

/-! ## Lemmas on the console -/

theorem isSpace_newline : isSpace '\n' = true := by decide

theorem token_append (e : List Char) (he : e = [] ∨ ∃ r, e = '\n' :: r) :
    ∀ l : List Char, (token (l ++ e)).1 = l.takeWhile (fun c => !isSpace c) := by
  intro l
  induction l with
  | nil =>
    rcases he with rfl | ⟨r, rfl⟩
    · rfl
    · simp [token, isSpace_newline]
  | cons c cs ih =>
    by_cases hc : isSpace c = true
    · simp [token, hc]
    · simp [token, hc, ih]

theorem Scanln_line (e : List Char) (he : e = [] ∨ ∃ r, e = '\n' :: r) :
    ∀ line : List Char, '\n' ∉ line → (Scanln (line ++ e)).1 = String.mk (firstWord line) := by
  intro line
  induction line with
  | nil =>
    intro _
    rcases he with rfl | ⟨r, rfl⟩
    · rfl
    · simp [Scanln, skipSpace, firstWord]
  | cons c cs ih =>
    intro hn
    have hc : c ≠ '\n' := by
      intro h
      exact hn (by simp [h])
    have hcs : '\n' ∉ cs := by
      intro h
      exact hn (by simp [h])
    by_cases hs : isSpace c = true
    · have h1 : Scanln (c :: cs ++ e) = Scanln (cs ++ e) := by
        simp [Scanln, skipSpace, hc, hs]
      rw [h1, ih hcs]
      simp [firstWord, hs]
    · have h1 : (Scanln (c :: cs ++ e)).1 = String.mk (token (c :: cs ++ e)).1 := by
        simp [Scanln, skipSpace, hc, hs]
      rw [h1]
      rw [token_append e he (c :: cs)]
      simp [firstWord, hs]

theorem ask_install_fst (w : World) :
    (AskForInstallationConfirmation w).1 = (strings_ToLower (Scanln w.stdin).1 == "y") := by
  simp [AskForInstallationConfirmation, scanResponse, Println]

theorem ask_readme_fst (w : World) :
    (AskToReadReadme w).1 = (strings_ToLower (Scanln w.stdin).1 == "y") := by
  simp [AskToReadReadme, scanResponse, Println]

/-! ## The resolver: claims -/

/-- C1 as stated fails. First, in an empty working directory no name exists, so the
first name of the sequence for the 300-byte base is absent; yet its probe fails with "file
name too long", as does the probe of every later candidate, and the call never returns.
Second, past the range of the `int` counter the loop leaves the sequence: with every name
of the sequence up to `relivator-9999999999999999999` there, the first absent name is
`relivator-10000000000000000000`, and the call returns `relivator--9223372036854775808`. -/
theorem findNextAvailableDir_absent_not_returned :
    ((∀ p, dirFS [] p ≠ .present) ∧
        ∀ fuel, (findNextAvailableDir (dirFS []) longBase fuel).1 = none) ∧
      (fsCrowded (seqName "relivator" 10000000000000000000) = .absent ∧
        (∀ j, j < 10000000000000000000 → fsCrowded (seqName "relivator" j) = .present) ∧
        ∀ fuel, 9223372036854775808 < fuel →
          (findNextAvailableDir fsCrowded "relivator" fuel).1 =
            some "relivator--9223372036854775808") := by
  have hpres : ∀ j, j < 10000000000000000000 → fsCrowded (seqName "relivator" j) = .present := by
    intro j hj
    have := seqName_relivator_length j hj
    simp only [fsCrowded]
    rw [if_neg (by omega)]
  refine ⟨⟨?_, ?_⟩, ?_, hpres, ?_⟩
  · intro p
    simp only [dirFS]
    split_ifs <;> simp_all
  · intro fuel
    exact loop_long_name longBase [] (by rw [longBase_size]; norm_num) fuel longBase 1
      (by rw [longBase_size]; norm_num)
  · decide
  · intro fuel hf
    obtain ⟨f, rfl⟩ : ∃ f, fuel = (f + 2) + 9223372036854775807 := ⟨fuel - 9223372036854775809, by omega⟩
    have hs := loop_skip "relivator" fsCrowded 9223372036854775807 0 (f + 2) (by norm_num)
      (fun j _ hj => by rw [hpres j (by omega)]; decide)
    have h1 : wrapInt (((0 : Nat) : Int) + 1) = 1 := by decide
    have h0 : seqName "relivator" 0 = "relivator" := rfl
    rw [h1, h0] at hs
    unfold findNextAvailableDir
    rw [hs, loop_succ, if_neg (by rw [hpres _ (by norm_num)]; decide), loop_succ]
    have hx : sprintfDir "relivator"
        (wrapInt (((0 + 9223372036854775807 : Nat) : Int) + 1)) =
        "relivator--9223372036854775808" := by decide
    rw [hx, if_pos (by decide)]

/-- C1, amended: for every base name and every filesystem in which the probe of at least
one of the names `base, base-1, base-2, ...` within the range of the `int` counter reports
"does not exist", `findNextAvailableDir` terminates, with any fuel beyond the index of the
first such name, and returns that name: the probe of the result reports "does not exist",
every earlier name of the sequence exists or has a probe that fails otherwise, and the
result is `base` itself when `base` is reported not to exist. -/
theorem findNextAvailableDir_first_absent (base : String) (fs : FileSystem)
    (h : ∃ k, k < 2 ^ 63 ∧ fs (seqName base k) = .absent) :
    ∃ k, fs (seqName base k) = .absent ∧
      (∀ j, j < k → fs (seqName base j) = .present ∨ fs (seqName base j) = .fault) ∧
      (fs base = .absent → k = 0) ∧
      ∀ fuel, k < fuel →
        findNextAvailableDir fs base fuel = (some (seqName base k), fs) := by
  classical
  have h2 : ∃ k, fs (seqName base k) = .absent := by
    obtain ⟨k, _, hk⟩ := h
    exact ⟨k, hk⟩
  have hmin : ∀ j, j < Nat.find h2 → fs (seqName base j) ≠ .absent :=
    fun j hj => Nat.find_min h2 hj
  refine ⟨Nat.find h2, Nat.find_spec h2, ?_, ?_, ?_⟩
  · intro j hj
    have := hmin j hj
    cases hv : fs (seqName base j) with
    | present => exact Or.inl rfl
    | absent => exact absurd hv this
    | fault => exact Or.inr rfl
  · intro hb
    exact (Nat.find_eq_zero h2).2 hb
  · intro fuel hf
    obtain ⟨k, hk, hka⟩ := h
    have hle : Nat.find h2 ≤ k := Nat.find_min' h2 hka
    have hlt : Nat.find h2 < 9223372036854775808 := by
      have : (2 : Nat) ^ 63 = 9223372036854775808 := by norm_num
      omega
    have hr := loop_reach base fs (Nat.find h2) hlt (Nat.find_spec h2) hmin
      (Nat.find h2) 0 fuel (by omega) hf
    have h1 : wrapInt (((0 : Nat) : Int) + 1) = 1 := by decide
    rw [h1] at hr
    exact hr

/-- Scenario B, through the amended C1: with exactly `relivator` and `relivator-1` there,
the call returns `relivator-2`. -/
theorem findNextAvailableDir_first_absent_witness :
    (∃ k, k < 2 ^ 63 ∧ fsB (seqName "relivator" k) = .absent) ∧
      findNextAvailableDir fsB "relivator" 3 = (some "relivator-2", fsB) := by
  have hx : ∃ k, k < 2 ^ 63 ∧ fsB (seqName "relivator" k) = .absent :=
    ⟨2, by norm_num, by decide⟩
  refine ⟨hx, ?_⟩
  obtain ⟨k, hka, hfirst, _, hret⟩ := findNextAvailableDir_first_absent "relivator" fsB hx
  have hk2 : k = 2 := by
    have h0 : k ≠ 0 := by
      rintro rfl
      revert hka; decide
    have h1 : k ≠ 1 := by
      rintro rfl
      revert hka; decide
    have h3 : ¬ 2 < k := by
      intro hlt
      have := hfirst 2 hlt
      revert this; decide
    omega
  subst hk2
  exact hret 3 (by norm_num)

/-- C7 as stated fails: the probe of `relivator` fails, and the call neither stops nor
reports it; it returns `relivator-1`, the very answer it gives when `relivator` exists. -/
theorem findNextAvailableDir_fault_not_signalled :
    fsFaultBase "relivator" = .fault ∧
      (findNextAvailableDir fsFaultBase "relivator" 2).1 = some "relivator-1" ∧
      (findNextAvailableDir fsTaken "relivator" 2).1 = some "relivator-1" := by
  decide

/-- C7, amended: a candidate whose probe fails for another reason than "does not exist" is
never returned as available; no fault is reported, the name counts as taken: the result
is the one obtained on the filesystem where all such names exist, and after a failed probe
of `base` the loop goes on with `base-1`. -/
theorem findNextAvailableDir_fault_as_taken (fs : FileSystem) (base : String) (fuel : Nat) :
    (∀ p, fs p = .fault → (findNextAvailableDir fs base fuel).1 ≠ some p) ∧
      (findNextAvailableDir fs base fuel).1 = (findNextAvailableDir (asTaken fs) base fuel).1 ∧
      (fs base = .fault → findNextAvailableDir fs base (fuel + 1) =
        findNextAvailableDirLoop base fuel fs (seqName base 1) 2) := by
  refine ⟨?_, ?_, ?_⟩
  · intro p hp hres
    have := loop_some_absent base fs fuel base 1 p hres
    rw [hp] at this
    exact absurd this (by decide)
  · apply loop_absent_only
    intro p
    unfold asTaken
    cases hp : fs p <;> simp
  · intro hb
    unfold findNextAvailableDir
    rw [loop_succ, if_neg (by rw [hb]; decide)]
    rfl

/-- The amended C7 on the filesystem where probing `relivator` fails. -/
theorem findNextAvailableDir_fault_as_taken_witness :
    fsFaultBase "relivator" = .fault ∧
      (findNextAvailableDir fsFaultBase "relivator" 2).1 ≠ some "relivator" ∧
      findNextAvailableDir fsFaultBase "relivator" 2 =
        findNextAvailableDirLoop "relivator" 1 fsFaultBase (seqName "relivator" 1) 2 :=
  ⟨by decide,
    (findNextAvailableDir_fault_as_taken fsFaultBase "relivator" 2).1 "relivator" (by decide),
    (findNextAvailableDir_fault_as_taken fsFaultBase "relivator" 1).2.2 (by decide)⟩

/-- C8: `findNextAvailableDir` leaves the filesystem as it found it, for every base name,
every filesystem and every number of iterations run (also when it is still looping). -/
theorem findNextAvailableDir_no_mutation (fs : FileSystem) (base : String) (fuel : Nat) :
    (findNextAvailableDir fs base fuel).2 = fs :=
  loop_snd base fs fuel base 1

/-- C9: two calls in a row give the same result; whenever both return, they return the
same name, however long each was allowed to run; and two filesystems that agree on the
names of the sequence (one of which, within the range of the counter, is absent) give the same
result. -/
theorem findNextAvailableDir_deterministic (fs : FileSystem) (base : String) :
    (∀ fuel, findNextAvailableDir (findNextAvailableDir fs base fuel).2 base fuel =
        findNextAvailableDir fs base fuel) ∧
      (∀ fuel1 fuel2 d1 d2, (findNextAvailableDir fs base fuel1).1 = some d1 →
        (findNextAvailableDir (findNextAvailableDir fs base fuel1).2 base fuel2).1 = some d2 →
        d1 = d2) ∧
      (∀ fs2 : FileSystem, (∃ k, k < 2 ^ 63 ∧ fs (seqName base k) = .absent) →
        (∀ k, fs (seqName base k) = fs2 (seqName base k)) →
        ∀ fuel, (findNextAvailableDir fs base fuel).1 = (findNextAvailableDir fs2 base fuel).1) := by
  refine ⟨?_, ?_, ?_⟩
  · intro fuel
    rw [resolver_fs_unchanged]
  · intro fuel1 fuel2 d1 d2 h1 h2
    rw [resolver_fs_unchanged] at h2
    have a := loop_mono base fs fuel1 base 1 d1 h1 (max fuel1 fuel2) (le_max_left _ _)
    have b := loop_mono base fs fuel2 base 1 d2 h2 (max fuel1 fuel2) (le_max_right _ _)
    rw [a] at b
    exact Option.some.inj b
  · rintro fs2 ⟨k, hk, habs⟩ hagree fuel
    have hlt : k < 9223372036854775808 := by
      have : (2 : Nat) ^ 63 = 9223372036854775808 := by norm_num
      omega
    have := loop_congr base fs fs2 k hlt habs (fun j _ => hagree j) k 0 fuel (by omega)
    have h1 : wrapInt (((0 : Nat) : Int) + 1) = 1 := by decide
    rw [h1] at this
    exact this

/-! ## The prompts: claims -/

/-- C2 as stated fails: the line `y n`, trimmed and lower-cased, is not `y`, yet both
prompts answer yes to it. -/
theorem prompt_yes_on_y_then_word :
    specAnswer "y n".toList = false ∧
      (AskForInstallationConfirmation ⟨fsEmpty, "y n\n".toList, []⟩).1 = true ∧
      (AskToReadReadme ⟨fsEmpty, "y n\n".toList, []⟩).1 = true := by
  decide

/-- C2, amended: for every line of console input (ended by a newline or by the end of the
input), each of the two prompts answers yes exactly when the first word of the line,
lower-cased, equals `y`: blanks around that word are skipped, whatever follows it on the
line is not looked at, every other line (the blank line too) is answered no, and both
prompts apply the same rule. -/
theorem prompt_answers_first_word (w : World) (line e : List Char)
    (hline : '\n' ∉ line) (he : e = [] ∨ ∃ r, e = '\n' :: r) (hin : w.stdin = line ++ e) :
    (AskForInstallationConfirmation w).1 = (strings_ToLower (String.mk (firstWord line)) == "y") ∧
      (AskToReadReadme w).1 = (strings_ToLower (String.mk (firstWord line)) == "y") ∧
      (AskForInstallationConfirmation w).1 = (AskToReadReadme w).1 := by
  have h := Scanln_line e he line hline
  refine ⟨?_, ?_, ?_⟩
  · rw [ask_install_fst, hin, h]
  · rw [ask_readme_fst, hin, h]
  · rw [ask_install_fst, ask_readme_fst]

/-- The amended C2 on the line `  Y  `, followed by more input. -/
theorem prompt_answers_first_word_witness :
    (AskForInstallationConfirmation ⟨fsEmpty, "  Y  \nmore".toList, []⟩).1 = true ∧
      (AskToReadReadme ⟨fsEmpty, "  Y  \nmore".toList, []⟩).1 = true := by
  have h := prompt_answers_first_word ⟨fsEmpty, "  Y  \nmore".toList, []⟩
    "  Y  ".toList "\nmore".toList (by decide) (Or.inr ⟨"more".toList, by decide⟩) (by decide)
  refine ⟨?_, ?_⟩
  · rw [h.1]; decide
  · rw [h.2.1]; decide

/-! ## Lemmas on the workflow -/

theorem isSpace_y : isSpace 'y' = false := by decide

theorem isSpace_n : isSpace 'n' = false := by decide

theorem Scanln_y (rest : List Char) : Scanln ('y' :: '\n' :: rest) = ("y", rest) := by
  simp [Scanln, skipSpace, token, expectNewline, isSpace_y, isSpace_newline]

theorem Scanln_n (rest : List Char) : Scanln ('n' :: '\n' :: rest) = ("n", rest) := by
  simp [Scanln, skipSpace, token, expectNewline, isSpace_n, isSpace_newline]

theorem Scanln_empty (rest : List Char) : Scanln ('\n' :: rest) = ("", rest) := by
  simp [Scanln, skipSpace]

theorem lower_y : strings_ToLower "y" = "y" := by decide

theorem lower_n_ne : (strings_ToLower "n" == "y") = false := by decide

theorem lower_empty_ne : (strings_ToLower "" == "y") = false := by decide

/-! ## The workflow: claims -/

/-- C4: in every run in which the answer to the install prompt is not yes, `main` prints
the cancellation message last and returns (whatever the fuel); the clone is never run, the
README prompt is never shown, the browser opener is never started, only one line is read
and the filesystem is untouched. -/
theorem main_cancelled (env : Env) (fuel : Nat) (fs : FileSystem) (stdin : List Char)
    (hno : (AskForInstallationConfirmation (ShowWelcomeMessage ⟨fs, stdin, []⟩)).1 = false) :
    ∃ w, main env fuel ⟨fs, stdin, []⟩ = some (.cancelled, w) ∧
      w.trace.getLast? = some (Event.print cancelMessage) ∧
      (∀ argv, Event.run argv ∉ w.trace) ∧ (∀ argv, Event.start argv ∉ w.trace) ∧
      Event.print readmePrompt ∉ w.trace ∧ w.trace.count Event.scanln = 1 ∧ w.fs = fs := by
  rw [ask_install_fst] at hno
  simp only [ShowWelcomeMessage, Println] at hno
  simp [main, ShowWelcomeMessage, AskForInstallationConfirmation, Println, scanResponse, hno,
    cancelMessage, readmePrompt]

/-- C4 on the answer `N`. -/
theorem main_cancelled_witness :
    ∃ w, main envOk 0 ⟨fsEmpty, "N\n".toList, []⟩ = some (.cancelled, w) ∧
      w.trace.getLast? = some (Event.print cancelMessage) ∧
      (∀ argv, Event.run argv ∉ w.trace) ∧ (∀ argv, Event.start argv ∉ w.trace) ∧
      Event.print readmePrompt ∉ w.trace ∧ w.trace.count Event.scanln = 1 ∧
      w.fs = fsEmpty :=
  main_cancelled envOk 0 fsEmpty "N\n".toList (by decide)

/-- C3: in every run in which the user answers `y` to the install prompt and `y` to the
README prompt, the resolver returns `d` for the base `relivator` and both collaborators
succeed, `main` runs to its end, and the collaborator calls are exactly: `git clone
https://github.com/blefnk/relivator d`, run once, then the browser opener of the platform
(`rundll32 url.dll,FileProtocolHandler` on windows, `open` on darwin, `xdg-open` elsewhere),
started once, on `https://github.com/blefnk/relivator#readme`. -/
theorem main_clone_then_open (env : Env) (fuel : Nat) (fs : FileSystem) (rest : List Char)
    (d : String) (hd : (findNextAvailableDir fs "relivator" fuel).1 = some d)
    (hclone : (env.run fs ["git", "clone", "https://github.com/blefnk/relivator", d]).1 = none)
    (hopen : (env.start (env.run fs ["git", "clone", "https://github.com/blefnk/relivator", d]).2
      (if env.GOOS = "windows" then
        ["rundll32", "url.dll,FileProtocolHandler", "https://github.com/blefnk/relivator#readme"]
      else if env.GOOS = "darwin" then ["open", "https://github.com/blefnk/relivator#readme"]
      else ["xdg-open", "https://github.com/blefnk/relivator#readme"])).1 = none) :
    ∃ w, main env fuel ⟨fs, 'y' :: '\n' :: 'y' :: '\n' :: rest, []⟩ = some (.completed, w) ∧
      w.trace.filter Event.isCollaborator =
        [Event.run ["git", "clone", "https://github.com/blefnk/relivator", d],
          Event.start
            (if env.GOOS = "windows" then
              ["rundll32", "url.dll,FileProtocolHandler",
                "https://github.com/blefnk/relivator#readme"]
            else if env.GOOS = "darwin" then
              ["open", "https://github.com/blefnk/relivator#readme"]
            else ["xdg-open", "https://github.com/blefnk/relivator#readme"])] := by
  have hres : findNextAvailableDir fs "relivator" fuel = (some d, fs) :=
    Prod.ext hd (resolver_fs_unchanged fs "relivator" fuel)
  simp [main, ShowWelcomeMessage, AskForInstallationConfirmation, AskToReadReadme, Println,
    scanResponse, Scanln_y, lower_y, hres, cmdRun, hclone, openURL, cmdStart, openCommand,
    hopen, Event.isCollaborator]

theorem banner_ne_cloned_message (d : String) :
    "⚠️ To be continued... Check back later or please help with code contributions..." ≠
      "✅ Successfully cloned the https://github.com/blefnk/relivator repository into " ++ d := by
  intro h
  have h2 := congrArg String.data h
  simp [String.data_append] at h2

theorem cloned_message_ne_banner (d : String) :
    "✅ Successfully cloned the https://github.com/blefnk/relivator repository into " ++ d ≠
      "⚠️ To be continued... Check back later or please help with code contributions..." :=
  fun h => banner_ne_cloned_message d h.symm

theorem resolve_on_empty :
    findNextAvailableDir fsEmpty "relivator" 1 = (some "relivator", fsEmpty) := rfl

/-- C6 as stated fails: the user accepts the installation, the clone succeeds, the user
declines the README prompt; the run ends in the `Done` of the specification, the exit message is
printed, and the closing banner is not. -/
theorem declined_readme_no_banner :
    ∃ w, main envOk 1 ⟨fsEmpty, "y\nn\n".toList, []⟩ = some (.declinedReadme, w) ∧
      Exit.terminal .declinedReadme = .done ∧
      w.trace.getLast? = some (Event.print exitMessage) ∧
      Event.print closingBanner ∉ w.trace := by
  simp [main, ShowWelcomeMessage, AskForInstallationConfirmation, AskToReadReadme, Println,
    scanResponse, Scanln_y, Scanln_n, lower_y, lower_n_ne, cmdRun, envOk, cloneOk, Exit.terminal,
    exitMessage, closingBanner, cloned_message_ne_banner, banner_ne_cloned_message,
    resolve_on_empty]

/-- C6, amended: in every run that ends, the closing banner is printed exactly when `main`
runs to its end, and that is exactly when the install prompt was answered yes, the clone
succeeded, the README prompt was answered yes and the browser opener started without error
(the README-opened message is then in the output); when the user declines the README prompt
the exit message is the last thing printed and no banner follows; a run that ends in
`Cancelled` or `Failed` never prints the banner. -/
theorem closing_banner_iff_completed (env : Env) (fuel : Nat) (fs : FileSystem)
    (stdin : List Char) (x : Exit) (w : World)
    (h : main env fuel ⟨fs, stdin, []⟩ = some (x, w)) :
    (Event.print closingBanner ∈ w.trace ↔ x = .completed) ∧
      (x = .completed ↔
        (AskForInstallationConfirmation (ShowWelcomeMessage ⟨fs, stdin, []⟩)).1 = true ∧
          ∃ d, (findNextAvailableDir fs "relivator" fuel).1 = some d ∧
            (env.run fs ["git", "clone", cloneURL, d]).1 = none ∧
            (AskToReadReadme ⟨fs, (Scanln stdin).2, []⟩).1 = true ∧
            (env.start (env.run fs ["git", "clone", cloneURL, d]).2
              (openCommand env.GOOS readmeURL)).1 = none) ∧
      (x = .completed → Event.print readmeOpenedMessage ∈ w.trace) ∧
      (x = .declinedReadme →
        w.trace.getLast? = some (Event.print exitMessage) ∧
          Event.print closingBanner ∉ w.trace) ∧
      (x.terminal ≠ .done → Event.print closingBanner ∉ w.trace) := by
  rw [ask_install_fst, ask_readme_fst]
  rcases hres : findNextAvailableDir fs "relivator" fuel with ⟨r, fs2⟩
  have hfs : fs2 = fs := by
    have := resolver_fs_unchanged fs "relivator" fuel
    rw [hres] at this
    exact this
  subst hfs
  simp only [main, ShowWelcomeMessage, AskForInstallationConfirmation, AskToReadReadme, Println,
    scanResponse, cmdRun, openURL, cmdStart, logError, hres] at h
  simp only [ShowWelcomeMessage, Println, cloneURL, readmeURL]
  split at h
  · rename_i hno
    simp at h
    obtain ⟨rfl, rfl⟩ := h
    simp at hno
    simp [closingBanner, Exit.terminal, hno]
  · rename_i hyes
    simp at hyes
    split at h
    · simp at h
    · rename_i hsome
      simp at hsome
      obtain ⟨rfl, rfl⟩ := hsome
      split at h
      · rename_i e hrun
        simp at h
        obtain ⟨rfl, rfl⟩ := h
        simp [closingBanner, Exit.terminal, cloned_message_ne_banner, banner_ne_cloned_message,
          hrun]
      · rename_i hrun
        split at h
        · rename_i hread
          split at h
          · rename_i e hstart
            simp at h
            obtain ⟨rfl, rfl⟩ := h
            simp [closingBanner, Exit.terminal, cloned_message_ne_banner,
              banner_ne_cloned_message, hstart]
          · rename_i hstart
            simp at h
            obtain ⟨rfl, rfl⟩ := h
            simp at hread
            simp [closingBanner, Exit.terminal, cloned_message_ne_banner,
              banner_ne_cloned_message, readmeOpenedMessage, hyes, hrun, hread, hstart]
        · rename_i hread
          simp at h
          obtain ⟨rfl, rfl⟩ := h
          simp at hread
          simp [closingBanner, Exit.terminal, cloned_message_ne_banner, banner_ne_cloned_message,
            exitMessage, hread]

/-- The amended C6 on the run that answers `y` twice with both collaborators succeeding:
it runs to the end and the banner is printed. -/
theorem closing_banner_iff_completed_witness :
    ∃ w, main envOk 1 ⟨fsEmpty, "y\ny\n".toList, []⟩ = some (.completed, w) ∧
      Event.print closingBanner ∈ w.trace := by
  have hm : ∃ w, main envOk 1 ⟨fsEmpty, "y\ny\n".toList, []⟩ = some (.completed, w) := by
    simp [main, ShowWelcomeMessage, AskForInstallationConfirmation, AskToReadReadme, Println,
      scanResponse, Scanln_y, lower_y, cmdRun, openURL, cmdStart, envOk, cloneOk,
      resolve_on_empty]
  obtain ⟨w, hw⟩ := hm
  exact ⟨w, hw, (closing_banner_iff_completed envOk 1 fsEmpty _ _ w hw).1.2 rfl⟩

/-- C3 on scenario B under Linux: the clone goes into `relivator-2`, then `xdg-open` is
started on the README. -/
theorem main_clone_then_open_witness :
    ∃ w, main envOk 3 ⟨fsB, 'y' :: '\n' :: 'y' :: '\n' :: [], []⟩ = some (.completed, w) ∧
      w.trace.filter Event.isCollaborator =
        [Event.run ["git", "clone", "https://github.com/blefnk/relivator", "relivator-2"],
          Event.start ["xdg-open", "https://github.com/blefnk/relivator#readme"]] :=
  main_clone_then_open envOk 3 fsB [] "relivator-2" (by decide) rfl rfl

/-- C5: in every run in which the user answers `y` to the install prompt, the resolver
returns `d` and the clone into `d` fails with error `e`, `main` reports that error last and
returns: the clone was run once and nothing else was spawned, the README prompt was never
shown, one line only was read and the rest of the input is left unread. -/
theorem main_clone_failed (env : Env) (fuel : Nat) (fs : FileSystem) (rest : List Char)
    (d e : String) (hd : (findNextAvailableDir fs "relivator" fuel).1 = some d)
    (hfail : (env.run fs ["git", "clone", cloneURL, d]).1 = some e) :
    ∃ w, main env fuel ⟨fs, 'y' :: '\n' :: rest, []⟩ = some (.cloneFailed, w) ∧
      w.trace.getLast? = some (Event.logError cloneErrorMessage e) ∧
      w.trace.filter Event.isCollaborator = [Event.run ["git", "clone", cloneURL, d]] ∧
      Event.print readmePrompt ∉ w.trace ∧ w.trace.count Event.scanln = 1 ∧
      w.stdin = rest := by
  have hres : findNextAvailableDir fs "relivator" fuel = (some d, fs) :=
    Prod.ext hd (resolver_fs_unchanged fs "relivator" fuel)
  simp only [cloneURL] at hfail
  simp [main, ShowWelcomeMessage, AskForInstallationConfirmation, Println, scanResponse,
    Scanln_y, lower_y, hres, cmdRun, hfail, logError, Event.isCollaborator, cloneURL,
    cloneErrorMessage, readmePrompt]

/-- C5 on scenario B with a failing clone; a second line `y` is waiting and stays unread. -/
theorem main_clone_failed_witness :
    ∃ w, main envCloneFails 3 ⟨fsB, 'y' :: '\n' :: "y\n".toList, []⟩ =
        some (.cloneFailed, w) ∧
      w.trace.getLast? = some (Event.logError cloneErrorMessage "exit status 128") ∧
      w.trace.filter Event.isCollaborator =
        [Event.run ["git", "clone", cloneURL, "relivator-2"]] ∧
      Event.print readmePrompt ∉ w.trace ∧ w.trace.count Event.scanln = 1 ∧
      w.stdin = "y\n".toList :=
  main_clone_failed envCloneFails 3 fsB "y\n".toList "relivator-2" "exit status 128"
    (by decide) rfl

/-- C10: an empty line is treated like `n` at either prompt. At the install prompt the two
runs end in the same state, a cancellation without a clone; at the README prompt (after `y`
at the install prompt) the two runs leave `main` the same way with the same printed messages
and collaborator calls, and when the clone succeeded that is the exit message, the browser
opener not started. Each prompt by itself answers, prints and consumes the same on the empty
line as on `n`, whatever came before it. -/
theorem empty_line_like_n (env : Env) (fuel : Nat) (fs : FileSystem) (rest : List Char) :
    main env fuel ⟨fs, '\n' :: rest, []⟩ = main env fuel ⟨fs, 'n' :: '\n' :: rest, []⟩ ∧
      (∃ w, main env fuel ⟨fs, '\n' :: rest, []⟩ = some (.cancelled, w) ∧
        w.trace.getLast? = some (Event.print cancelMessage) ∧
        w.trace.filter Event.isCollaborator = []) ∧
      observed (main env fuel ⟨fs, 'y' :: '\n' :: '\n' :: rest, []⟩) =
        observed (main env fuel ⟨fs, 'y' :: '\n' :: 'n' :: '\n' :: rest, []⟩) ∧
      (∀ d, (findNextAvailableDir fs "relivator" fuel).1 = some d →
        (env.run fs ["git", "clone", cloneURL, d]).1 = none →
        ∃ w, main env fuel ⟨fs, 'y' :: '\n' :: '\n' :: rest, []⟩ = some (.declinedReadme, w) ∧
          w.trace.getLast? = some (Event.print exitMessage) ∧
          w.trace.filter Event.isCollaborator = [Event.run ["git", "clone", cloneURL, d]]) ∧
      (∀ w : World, AskForInstallationConfirmation { w with stdin := '\n' :: rest } =
        AskForInstallationConfirmation { w with stdin := 'n' :: '\n' :: rest }) ∧
      (∀ w : World, AskToReadReadme { w with stdin := '\n' :: rest } =
        AskToReadReadme { w with stdin := 'n' :: '\n' :: rest }) := by
  refine ⟨?_, ?_, ?_, ?_, ?_, ?_⟩
  · simp [main, ShowWelcomeMessage, AskForInstallationConfirmation, Println, scanResponse,
      Scanln_n, Scanln_empty, lower_n_ne, lower_empty_ne]
  · simp [main, ShowWelcomeMessage, AskForInstallationConfirmation, Println, scanResponse,
      Scanln_empty, lower_empty_ne, cancelMessage, Event.isCollaborator]
  · rcases hres : findNextAvailableDir fs "relivator" fuel with ⟨_ | d, fs2⟩
    · simp [observed, main, ShowWelcomeMessage, AskForInstallationConfirmation, Println,
        scanResponse, Scanln_y, lower_y, hres]
    · cases hrun : (env.run fs2 ["git", "clone", "https://github.com/blefnk/relivator", d]).1 <;>
        simp [observed, main, ShowWelcomeMessage, AskForInstallationConfirmation,
          AskToReadReadme, Println, scanResponse, Scanln_y, Scanln_n, Scanln_empty, lower_y,
          lower_n_ne, lower_empty_ne, cmdRun, logError, hres, hrun]
  · intro d hd hclone
    have hres : findNextAvailableDir fs "relivator" fuel = (some d, fs) :=
      Prod.ext hd (resolver_fs_unchanged fs "relivator" fuel)
    simp only [cloneURL] at hclone
    simp [main, ShowWelcomeMessage, AskForInstallationConfirmation, AskToReadReadme, Println,
      scanResponse, Scanln_y, Scanln_empty, lower_y, lower_empty_ne, hres, cmdRun, hclone,
      exitMessage, Event.isCollaborator, cloneURL]
  · intro w
    simp [AskForInstallationConfirmation, Println, scanResponse, Scanln_n, Scanln_empty,
      lower_n_ne, lower_empty_ne]
  · intro w
    simp [AskToReadReadme, Println, scanResponse, Scanln_n, Scanln_empty, lower_n_ne,
      lower_empty_ne]

/-- C10 on scenario B: the empty line at the README prompt ends the run with the exit
message, after the one clone into `relivator-2`. -/
theorem empty_line_like_n_witness :
    ∃ w, main envOk 3 ⟨fsB, 'y' :: '\n' :: '\n' :: [], []⟩ = some (.declinedReadme, w) ∧
      w.trace.getLast? = some (Event.print exitMessage) ∧
      w.trace.filter Event.isCollaborator =
        [Event.run ["git", "clone", cloneURL, "relivator-2"]] :=
  (empty_line_like_n envOk 3 fsB []).2.2.2.1 "relivator-2" (by decide) rfl

theorem seqName_relivator_ne (k : Nat) : seqName "relivator" k ≠ "unrelated" := by
  cases k with
  | zero => decide
  | succ n =>
    intro h
    have h2 := congrArg String.data h
    simp [seqName, String.data_append] at h2

/-- C9 on scenario B: the call returns `relivator-2`, a second call right after it does too,
and an unrelated directory next to the sequence changes nothing. -/
theorem findNextAvailableDir_deterministic_witness :
    (findNextAvailableDir fsB "relivator" 3).1 = some "relivator-2" ∧
      (findNextAvailableDir (findNextAvailableDir fsB "relivator" 3).2 "relivator" 7).1 =
        some "relivator-2" ∧
      "relivator-2" = "relivator-2" ∧
      (findNextAvailableDir fsB "relivator" 5).1 =
        (findNextAvailableDir fsBPlus "relivator" 5).1 :=
  ⟨by decide, by decide,
    (findNextAvailableDir_deterministic fsB "relivator").2.1 3 7 "relivator-2"
      "relivator-2" (by decide) (by decide),
    (findNextAvailableDir_deterministic fsB "relivator").2.2 fsBPlus
      ⟨2, by norm_num, by decide⟩
      (fun k => by simp [fsB, fsBPlus, dirFS, seqName_relivator_ne]) 5⟩

end Reliverse
